import Mathlib

/-!
Shallow embedding of the cable-sizing engine in `cable_app.py`
(Electrical Cable Sizing App, IS 7098 Part 1, XLPE armoured cables).

The engine consists of four static reference tables and two pure
functions, `calculate_current` and `select_cable`.  Numeric values that
the Python code holds as floats are embedded as exact rationals (`ℚ`)
for `select_cable` and as reals (`ℝ`) for `calculate_current`, whose
three-phase branch divides by `math.sqrt(3)`.  Python's `round(x, n)`
is embedded as `roundTo`/`roundToR` (round to `n` decimal places;
Mathlib's `round` resolves exact ties upward where Python's float
`round` is half-to-even — no statement below depends on a tie).
Python's `raise ValueError(msg)` and `ZeroDivisionError` are embedded
as an `Except` error outcome; message strings drop the quote
characters of the source but keep the field names.
-/

set_option maxRecDepth 8000

attribute [local semireducible] Rat.inv Rat.mul Rat.add Rat.sub Rat.ofScientific

deriving instance DecidableEq for Except

namespace CableApp

/-- ASCII uppercase of one character, as Python `str.upper` acts on the
ASCII tags used by the app. -/
def asciiUpperChar (c : Char) : Char :=
  if 97 ≤ c.toNat ∧ c.toNat ≤ 122 then Char.ofNat (c.toNat - 32) else c

/-- Python `s.upper()` on ASCII strings. -/
def asciiUpper (s : String) : String :=
  ⟨s.data.map asciiUpperChar⟩

/-- ASCII lowercase of one character. -/
def asciiLowerChar (c : Char) : Char :=
  if 65 ≤ c.toNat ∧ c.toNat ≤ 90 then Char.ofNat (c.toNat + 32) else c

/-- Python `s.lower()` on ASCII strings. -/
def asciiLower (s : String) : String :=
  ⟨s.data.map asciiLowerChar⟩

/-- One row of a current-rating table: rated Amps for the three
installation methods, in the source's column order
`ground`, `free_air`, `pipe_duct`. -/
structure MethodRatings where
  ground : ℚ
  free_air : ℚ
  pipe_duct : ℚ
deriving DecidableEq, Repr

/-- `COPPER_CURRENT_RATINGS` of `cable_app.py` (lines 13-31), as an
association list in the source's literal order. -/
def COPPER_CURRENT_RATINGS : List (ℚ × MethodRatings) :=
  [(1.5, ⟨17, 24, 15⟩), (2.5, ⟨27, 38, 24⟩), (4, ⟨36, 51, 32⟩),
   (6, ⟨46, 65, 41⟩), (10, ⟨63, 89, 56⟩), (16, ⟨85, 119, 76⟩),
   (25, ⟨111, 155, 100⟩), (35, ⟨135, 188, 122⟩), (50, ⟨163, 227, 148⟩),
   (70, ⟨203, 284, 184⟩), (95, ⟨244, 340, 221⟩), (120, ⟨280, 390, 254⟩),
   (150, ⟨315, 438, 286⟩), (185, ⟨353, 492, 320⟩), (240, ⟨406, 565, 368⟩),
   (300, ⟨456, 635, 414⟩), (400, ⟨545, 760, 496⟩)]

/-- `ALUMINIUM_CURRENT_RATINGS` of `cable_app.py` (lines 34-52). -/
def ALUMINIUM_CURRENT_RATINGS : List (ℚ × MethodRatings) :=
  [(1.5, ⟨13, 18, 11⟩), (2.5, ⟨20, 28, 18⟩), (4, ⟨27, 38, 24⟩),
   (6, ⟨34, 48, 30⟩), (10, ⟨46, 65, 41⟩), (16, ⟨63, 88, 57⟩),
   (25, ⟨82, 114, 73⟩), (35, ⟨100, 139, 90⟩), (50, ⟨121, 169, 109⟩),
   (70, ⟨151, 211, 136⟩), (95, ⟨182, 254, 163⟩), (120, ⟨209, 292, 188⟩),
   (150, ⟨234, 327, 210⟩), (185, ⟨263, 368, 236⟩), (240, ⟨303, 424, 272⟩),
   (300, ⟨340, 475, 305⟩), (400, ⟨408, 570, 366⟩)]

/-- `COPPER_VOLTAGE_DROP_FACTORS` of `cable_app.py` (lines 55-73),
mV per Ampere per metre. -/
def COPPER_VOLTAGE_DROP_FACTORS : List (ℚ × ℚ) :=
  [(1.5, 29.50), (2.5, 17.80), (4, 11.00), (6, 7.41), (10, 4.40),
   (16, 2.75), (25, 1.75), (35, 1.25), (50, 0.89), (70, 0.63),
   (95, 0.47), (120, 0.37), (150, 0.30), (185, 0.24), (240, 0.18),
   (300, 0.15), (400, 0.11)]

/-- `ALUMINIUM_VOLTAGE_DROP_FACTORS` of `cable_app.py` (lines 76-94). -/
def ALUMINIUM_VOLTAGE_DROP_FACTORS : List (ℚ × ℚ) :=
  [(1.5, 47.20), (2.5, 28.50), (4, 17.60), (6, 11.80), (10, 7.04),
   (16, 4.40), (25, 2.80), (35, 2.00), (50, 1.42), (70, 1.00),
   (95, 0.75), (120, 0.59), (150, 0.47), (185, 0.38), (240, 0.29),
   (300, 0.24), (400, 0.18)]

/-- A raised Python exception of the engine: `ValueError` (invalid
parameter, with its message) or `ZeroDivisionError`. -/
inductive CableError where
  | invalidParameter (msg : String)
  | zeroDivisionError
deriving DecidableEq, Repr

/-- The result dictionary of `select_cable`: either the `Selected`
record (`size`, `actual_capacity`, `voltage_drop`, `voltage_drop_mv`)
or the no-suitable-cable record, whose `size` and numeric fields are
`None` and whose status string carries `max_voltage_drop_percent`. -/
inductive SelectionResult where
  | selected (size actual_capacity voltage_drop voltage_drop_mv : ℚ)
  | notFound (max_voltage_drop_percent : ℚ)
deriving DecidableEq, Repr

/-- Python `round(x, n)` on exact rationals: round `x` to `n` decimal
places (ties go up, see the file comment). -/
def roundTo (n : ℕ) (x : ℚ) : ℚ :=
  ((round (x * 10 ^ n) : ℤ) : ℚ) / 10 ^ n

/-- `current_dict[size]`: the row of a current-rating table at `size`
(the scan only ever looks up keys present in the table). -/
def capacityEntry (current_dict : List (ℚ × MethodRatings)) (size : ℚ) : MethodRatings :=
  ((current_dict.lookup size).getD ⟨0, 0, 0⟩)

/-- `vd_dict[size]`: the voltage-drop factor at `size`. -/
def vdEntry (vd_dict : List (ℚ × ℚ)) (size : ℚ) : ℚ :=
  ((vd_dict.lookup size).getD 0)

/-- `row[method_key]`: selects the column of a `MethodRatings` row
named by the (already validated) installation-method key. -/
def ratingFor (row : MethodRatings) (method_key : String) : ℚ :=
  if method_key = "ground" then row.ground
  else if method_key = "free_air" then row.free_air
  else row.pipe_duct

/-- `base_capacity = current_dict[size][method_key]` of the loop body
(line 211 of `cable_app.py`). -/
def baseCapacityOf (current_dict : List (ℚ × MethodRatings)) (method_key : String)
    (size : ℚ) : ℚ :=
  ratingFor (capacityEntry current_dict size) method_key

/-- `voltage_drop_percent` of the loop body (lines 217-219):
`vd_factor * calculated_current * length / (voltage * 1000) * 100`. -/
def vdPercentOf (vd_dict : List (ℚ × ℚ)) (calculated_current length voltage : ℚ)
    (size : ℚ) : ℚ :=
  vdEntry vd_dict size * calculated_current * length / (voltage * 1000) * 100

/-- A size qualifies when both selection criteria of the loop hold:
`derated_capacity >= calculated_current` (line 215, `>=` not `>`) and
`voltage_drop_percent <= max_voltage_drop_percent` (line 222). -/
def qualifiesSize (current_dict : List (ℚ × MethodRatings)) (vd_dict : List (ℚ × ℚ))
    (method_key : String)
    (calculated_current length derating_factor max_voltage_drop_percent voltage : ℚ)
    (size : ℚ) : Prop :=
  baseCapacityOf current_dict method_key size * derating_factor ≥ calculated_current ∧
  vdPercentOf vd_dict calculated_current length voltage size ≤ max_voltage_drop_percent

instance (current_dict : List (ℚ × MethodRatings)) (vd_dict : List (ℚ × ℚ))
    (method_key : String)
    (calculated_current length derating_factor max_voltage_drop_percent voltage size : ℚ) :
    Decidable (qualifiesSize current_dict vd_dict method_key calculated_current length
      derating_factor max_voltage_drop_percent voltage size) :=
  inferInstanceAs (Decidable (_ ∧ _))

/-- Python `sorted` on distinct keys: insertion sort. -/
def insertSorted (x : ℚ) : List ℚ → List ℚ
  | [] => [x]
  | y :: ys => if x ≤ y then x :: y :: ys else y :: insertSorted x ys

/-- `sorted(current_dict.keys())` (line 210): the catalog of sizes,
in ascending numeric order. -/
def sortedSizes (current_dict : List (ℚ × MethodRatings)) : List ℚ :=
  (current_dict.map Prod.fst).foldr insertSorted []

/-- The `for size in sorted(current_dict.keys())` loop of
`select_cable` (lines 210-238).  Each division of the source is guarded
by a zero test of its divisor, embedding Python's `ZeroDivisionError`:
`voltage_drop_percent` divides by `voltage * 1000` (line 219) and the
returned `voltage_drop_mv` field divides by `length` (line 227).  The
intermediate names of the source are the shared definitions above:
`base_capacity * derating_factor` is `baseCapacityOf ... * derating_factor`
and `voltage_drop_percent` is `vdPercentOf ...`; `voltage_drop_mv` is
`vdEntry vd_dict size * calculated_current * length`. -/
def selectLoop (current_dict : List (ℚ × MethodRatings)) (vd_dict : List (ℚ × ℚ))
    (method_key : String)
    (calculated_current length derating_factor max_voltage_drop_percent voltage : ℚ) :
    List ℚ → Except CableError SelectionResult
  | [] => .ok (.notFound max_voltage_drop_percent)
  | size :: rest =>
    if baseCapacityOf current_dict method_key size * derating_factor ≥ calculated_current then
      if voltage = 0 then .error .zeroDivisionError
      else if vdPercentOf vd_dict calculated_current length voltage size ≤
          max_voltage_drop_percent then
        if length = 0 then .error .zeroDivisionError
        else .ok (.selected size
            (roundTo 2 (baseCapacityOf current_dict method_key size * derating_factor))
            (roundTo 2 (vdPercentOf vd_dict calculated_current length voltage size))
            (roundTo 3 (vdEntry vd_dict size * calculated_current * length / length)))
      else selectLoop current_dict vd_dict method_key calculated_current length
          derating_factor max_voltage_drop_percent voltage rest
    else selectLoop current_dict vd_dict method_key calculated_current length
        derating_factor max_voltage_drop_percent voltage rest

/-- The table pair chosen by the `if/elif/else` on
`conductor_type.upper()` (lines 193-200): current-rating table and
voltage-drop table, or `none` for an unrecognized material. -/
def tablesFor (conductor_type : String) :
    Option (List (ℚ × MethodRatings) × List (ℚ × ℚ)) :=
  if asciiUpper conductor_type = "CU" then
    some (COPPER_CURRENT_RATINGS, COPPER_VOLTAGE_DROP_FACTORS)
  else if asciiUpper conductor_type = "AL" then
    some (ALUMINIUM_CURRENT_RATINGS, ALUMINIUM_VOLTAGE_DROP_FACTORS)
  else none

/-- `select_cable` of `cable_app.py` (lines 154-238).  Material is
resolved first (raising for an unknown tag), then the installation
method is validated against `["ground", "free_air", "pipe_duct"]`
after lowercasing (line 203), then the ascending scan runs.  The
source selects the tables once and validates the method once; here the
method check is written inside each material branch, which yields the
same result on every input. -/
def select_cable (calculated_current : ℚ) (conductor_type installation_method : String)
    (length derating_factor max_voltage_drop_percent voltage : ℚ) :
    Except CableError SelectionResult :=
  if asciiUpper conductor_type = "CU" then
    if asciiLower installation_method ∈ ["ground", "free_air", "pipe_duct"] then
      selectLoop COPPER_CURRENT_RATINGS COPPER_VOLTAGE_DROP_FACTORS
        (asciiLower installation_method) calculated_current length derating_factor
        max_voltage_drop_percent voltage (sortedSizes COPPER_CURRENT_RATINGS)
    else .error (.invalidParameter "installation_method must be ground, free_air, or pipe_duct")
  else if asciiUpper conductor_type = "AL" then
    if asciiLower installation_method ∈ ["ground", "free_air", "pipe_duct"] then
      selectLoop ALUMINIUM_CURRENT_RATINGS ALUMINIUM_VOLTAGE_DROP_FACTORS
        (asciiLower installation_method) calculated_current length derating_factor
        max_voltage_drop_percent voltage (sortedSizes ALUMINIUM_CURRENT_RATINGS)
    else .error (.invalidParameter "installation_method must be ground, free_air, or pipe_duct")
  else .error (.invalidParameter "conductor_type must be Cu or Al")

/-- Python `round(x, n)` on reals, for `calculate_current`. -/
noncomputable def roundToR (n : ℕ) (x : ℝ) : ℝ :=
  ((round (x * 10 ^ n) : ℤ) : ℝ) / 10 ^ n

open Classical in
/-- `calculate_current` of `cable_app.py` (lines 96-151): validation of
`load_type`, `voltage` and `power_factor` in source order, the `Amps`
pass-through, HP-to-kW conversion by the factor `0.746` (inlined where
the source binds `load_kw`), and the single- or three-phase formula,
rounded to 2 decimal places. -/
noncomputable def calculate_current (load_value : ℝ) (load_type : String)
    (voltage power_factor : ℝ) : Except CableError ℝ :=
  if load_type ∉ ["kW", "HP", "Amps"] then
    .error (.invalidParameter "load_type must be kW, HP, or Amps")
  else if voltage ∉ ([230, 415] : List ℝ) then
    .error (.invalidParameter "voltage must be 230V single-phase or 415V three-phase")
  else if ¬ (0 < power_factor ∧ power_factor ≤ 1) then
    .error (.invalidParameter "power_factor must be between 0 and 1")
  else if load_type = "Amps" then
    .ok load_value
  else if voltage = 230 then
    .ok (roundToR 2 (((if load_type = "HP" then load_value * 0.746 else load_value) * 1000) /
      (voltage * power_factor)))
  else
    .ok (roundToR 2 (((if load_type = "HP" then load_value * 0.746 else load_value) * 1000) /
      (Real.sqrt 3 * voltage * power_factor)))

end CableApp

namespace CableApp

/-! ### Helper lemmas about the scan -/

/-- Being the first qualifying element is unaffected by dropping a
non-qualifying head.  `C` stands for the record-field equations. -/
lemma first_iff_cons_of_not {Q : ℚ → Prop} {x : ℚ} {rest : List ℚ} (hx : ¬ Q x)
    {s : ℚ} {C : Prop} :
    (s ∈ rest ∧ Q s ∧ (∀ t ∈ rest, t < s → ¬ Q t) ∧ C) ↔
    (s ∈ x :: rest ∧ Q s ∧ (∀ t ∈ x :: rest, t < s → ¬ Q t) ∧ C) := by
  constructor
  · rintro ⟨hmem, hQs, hmin, hC⟩
    refine ⟨List.mem_cons_of_mem x hmem, hQs, ?_, hC⟩
    intro t ht hts
    rcases List.mem_cons.mp ht with rfl | htr
    · exact hx
    · exact hmin t htr hts
  · rintro ⟨hmem, hQs, hmin, hC⟩
    refine ⟨?_, hQs, ?_, hC⟩
    · rcases List.mem_cons.mp hmem with rfl | h
      · exact absurd hQs hx
      · exact h
    · intro t ht hts
      exact hmin t (List.mem_cons_of_mem x ht) hts

/-- The scan returns the `Selected` record for `s` exactly when `s` is
the smallest element of the (sorted) iteration list satisfying both
criteria, and the record fields are the rounded capacity, percentage
and per-metre figures. -/
lemma selectLoop_selected_iff (cd : List (ℚ × MethodRatings)) (vd : List (ℚ × ℚ))
    (mk : String) (cc len df maxVd voltage : ℚ)
    (hv : voltage ≠ 0) (hl : len ≠ 0) :
    ∀ (l : List ℚ), l.Sorted (· < ·) → ∀ (s c v m : ℚ),
    (selectLoop cd vd mk cc len df maxVd voltage l = .ok (.selected s c v m) ↔
      (s ∈ l ∧ qualifiesSize cd vd mk cc len df maxVd voltage s ∧
       (∀ t ∈ l, t < s → ¬ qualifiesSize cd vd mk cc len df maxVd voltage t) ∧
       c = roundTo 2 (baseCapacityOf cd mk s * df) ∧
       v = roundTo 2 (vdPercentOf vd cc len voltage s) ∧
       m = roundTo 3 (vdEntry vd s * cc * len / len))) := by
  intro l
  induction l with
  | nil =>
    intro _ s c v m
    simp [selectLoop]
  | cons x rest ih =>
    intro hsort s c v m
    rw [List.sorted_cons] at hsort
    obtain ⟨hxlt, hrest⟩ := hsort
    by_cases hcap : baseCapacityOf cd mk x * df ≥ cc
    · by_cases hvdx : vdPercentOf vd cc len voltage x ≤ maxVd
      · have hQx : qualifiesSize cd vd mk cc len df maxVd voltage x := ⟨hcap, hvdx⟩
        rw [show selectLoop cd vd mk cc len df maxVd voltage (x :: rest) =
            .ok (.selected x (roundTo 2 (baseCapacityOf cd mk x * df))
              (roundTo 2 (vdPercentOf vd cc len voltage x))
              (roundTo 3 (vdEntry vd x * cc * len / len))) from by
          simp only [selectLoop]
          rw [if_pos hcap, if_neg hv, if_pos hvdx, if_neg hl]]
        constructor
        · intro h
          simp only [Except.ok.injEq, SelectionResult.selected.injEq] at h
          obtain ⟨rfl, rfl, rfl, rfl⟩ := h
          refine ⟨List.mem_cons_self x rest, hQx, ?_, rfl, rfl, rfl⟩
          intro t ht hts
          rcases List.mem_cons.mp ht with rfl | htr
          · exact absurd hts (lt_irrefl t)
          · exact absurd (hts.trans (hxlt t htr)) (lt_irrefl t)
        · rintro ⟨hmem, hQs, hmin, hcv, hvv, hmv⟩
          have hsx : s = x := by
            rcases List.mem_cons.mp hmem with h | h
            · exact h
            · exact absurd hQx (hmin x (List.mem_cons_self x rest) (hxlt s h))
          subst hsx
          rw [hcv, hvv, hmv]
      · have hnQx : ¬ qualifiesSize cd vd mk cc len df maxVd voltage x := fun h => hvdx h.2
        rw [show selectLoop cd vd mk cc len df maxVd voltage (x :: rest) =
            selectLoop cd vd mk cc len df maxVd voltage rest from by
          simp only [selectLoop]
          rw [if_pos hcap, if_neg hv, if_neg hvdx]]
        rw [ih hrest s c v m]
        exact first_iff_cons_of_not hnQx
    · have hnQx : ¬ qualifiesSize cd vd mk cc len df maxVd voltage x := fun h => hcap h.1
      rw [show selectLoop cd vd mk cc len df maxVd voltage (x :: rest) =
          selectLoop cd vd mk cc len df maxVd voltage rest from by
        simp only [selectLoop]
        rw [if_neg hcap]]
      rw [ih hrest s c v m]
      exact first_iff_cons_of_not hnQx

/-- The scan returns the `NotFound` record exactly when no element of
the iteration list satisfies both criteria; the record carries the
attempted `max_voltage_drop_percent`. -/
lemma selectLoop_notFound_iff (cd : List (ℚ × MethodRatings)) (vd : List (ℚ × ℚ))
    (mk : String) (cc len df maxVd voltage : ℚ)
    (hv : voltage ≠ 0) :
    ∀ (l : List ℚ) (w : ℚ),
    (selectLoop cd vd mk cc len df maxVd voltage l = .ok (.notFound w) ↔
      (w = maxVd ∧ ∀ t ∈ l, ¬ qualifiesSize cd vd mk cc len df maxVd voltage t)) := by
  intro l
  induction l with
  | nil =>
    intro w
    simp only [selectLoop, Except.ok.injEq, SelectionResult.notFound.injEq,
      List.not_mem_nil, false_implies, implies_true, and_true]
    exact eq_comm
  | cons x rest ih =>
    intro w
    by_cases hcap : baseCapacityOf cd mk x * df ≥ cc
    · by_cases hvdx : vdPercentOf vd cc len voltage x ≤ maxVd
      · by_cases hl : len = (0 : ℚ)
        · rw [show selectLoop cd vd mk cc len df maxVd voltage (x :: rest) =
              .error .zeroDivisionError from by
            simp only [selectLoop]
            rw [if_pos hcap, if_neg hv, if_pos hvdx, if_pos hl]]
          constructor
          · intro h
            exact Except.noConfusion h
          · rintro ⟨_, hall⟩
            exact absurd ⟨hcap, hvdx⟩ (hall x (List.mem_cons_self x rest))
        · rw [show selectLoop cd vd mk cc len df maxVd voltage (x :: rest) =
              .ok (.selected x (roundTo 2 (baseCapacityOf cd mk x * df))
                (roundTo 2 (vdPercentOf vd cc len voltage x))
                (roundTo 3 (vdEntry vd x * cc * len / len))) from by
            simp only [selectLoop]
            rw [if_pos hcap, if_neg hv, if_pos hvdx, if_neg hl]]
          constructor
          · intro h
            simp only [Except.ok.injEq] at h
            exact SelectionResult.noConfusion h
          · rintro ⟨_, hall⟩
            exact absurd ⟨hcap, hvdx⟩ (hall x (List.mem_cons_self x rest))
      · have hnQx : ¬ qualifiesSize cd vd mk cc len df maxVd voltage x := fun h => hvdx h.2
        rw [show selectLoop cd vd mk cc len df maxVd voltage (x :: rest) =
            selectLoop cd vd mk cc len df maxVd voltage rest from by
          simp only [selectLoop]
          rw [if_pos hcap, if_neg hv, if_neg hvdx]]
        rw [ih w]
        simp [List.forall_mem_cons, hnQx]
    · have hnQx : ¬ qualifiesSize cd vd mk cc len df maxVd voltage x := fun h => hcap h.1
      rw [show selectLoop cd vd mk cc len df maxVd voltage (x :: rest) =
          selectLoop cd vd mk cc len df maxVd voltage rest from by
        simp only [selectLoop]
        rw [if_neg hcap]]
      rw [ih w]
      simp [List.forall_mem_cons, hnQx]

/-- With `length = 0`, as soon as some size passes the capacity
criterion the scan reaches the per-metre division by `length` (the
voltage-drop percentage is `0`, below any positive limit) and raises
`ZeroDivisionError`. -/
lemma selectLoop_zero_length (cd : List (ℚ × MethodRatings)) (vd : List (ℚ × ℚ))
    (mk : String) (cc df maxVd voltage : ℚ)
    (hv : voltage ≠ 0) (hmax : 0 < maxVd) :
    ∀ l : List ℚ, (∃ s ∈ l, baseCapacityOf cd mk s * df ≥ cc) →
    selectLoop cd vd mk cc 0 df maxVd voltage l = .error .zeroDivisionError := by
  intro l
  induction l with
  | nil =>
    rintro ⟨s, hs, _⟩
    exact absurd hs (List.not_mem_nil s)
  | cons x rest ih =>
    rintro ⟨s, hs, hcap_s⟩
    by_cases hcap : baseCapacityOf cd mk x * df ≥ cc
    · have hpct : vdPercentOf vd cc 0 voltage x = 0 := by
        simp [vdPercentOf]
      simp only [selectLoop]
      rw [if_pos hcap, if_neg hv, hpct, if_pos (le_of_lt hmax)]
      simp
    · rcases List.mem_cons.mp hs with rfl | hsr
      · exact absurd hcap_s hcap
      · simp only [selectLoop]
        rw [if_neg hcap]
        exact ih ⟨s, hsr, hcap_s⟩

/-- The scan itself never raises an invalid-parameter error: its only
outcomes are a result record or `ZeroDivisionError`. -/
lemma selectLoop_ne_invalidParameter (cd : List (ℚ × MethodRatings)) (vd : List (ℚ × ℚ))
    (mk : String) (cc len df maxVd voltage : ℚ) :
    ∀ (l : List ℚ) (msg : String),
    selectLoop cd vd mk cc len df maxVd voltage l ≠ .error (.invalidParameter msg) := by
  intro l
  induction l with
  | nil =>
    intro msg h
    exact Except.noConfusion h
  | cons x rest ih =>
    intro msg
    simp only [selectLoop]
    split_ifs with h1 h2 h3 h4 <;>
      first
        | exact ih msg
        | (intro h
           first
             | exact Except.noConfusion h
             | (simp only [Except.error.injEq] at h
                exact CableError.noConfusion h))

/-- Case analysis of the material dispatch (lines 193-200): a
successful `tablesFor` is the copper pair or the aluminium pair. -/
lemma tablesFor_cases {ct : String} {cd : List (ℚ × MethodRatings)} {vd : List (ℚ × ℚ)}
    (h : tablesFor ct = some (cd, vd)) :
    (asciiUpper ct = "CU" ∧ cd = COPPER_CURRENT_RATINGS ∧ vd = COPPER_VOLTAGE_DROP_FACTORS) ∨
    (¬ asciiUpper ct = "CU" ∧ asciiUpper ct = "AL" ∧ cd = ALUMINIUM_CURRENT_RATINGS ∧
      vd = ALUMINIUM_VOLTAGE_DROP_FACTORS) := by
  unfold tablesFor at h
  split_ifs at h with h1 h2
  · simp only [Option.some.injEq, Prod.mk.injEq] at h
    exact Or.inl ⟨h1, h.1.symm, h.2.symm⟩
  · simp only [Option.some.injEq, Prod.mk.injEq] at h
    exact Or.inr ⟨h1, h2, h.1.symm, h.2.symm⟩

/-- `tablesFor` fails exactly on a material tag that uppercases to
neither `CU` nor `AL`. -/
lemma tablesFor_eq_none_iff (ct : String) :
    tablesFor ct = none ↔ (¬ asciiUpper ct = "CU" ∧ ¬ asciiUpper ct = "AL") := by
  unfold tablesFor
  split_ifs with h1 h2
  · simp [h1]
  · simp [h1, h2]
  · simp [h1, h2]

/-- On validated material and method tags, `select_cable` is the scan
over the sorted catalog of the chosen tables. -/
lemma select_cable_eq_loop {cc : ℚ} {ct im : String} {len df maxVd voltage : ℚ}
    {cd : List (ℚ × MethodRatings)} {vd : List (ℚ × ℚ)}
    (hT : tablesFor ct = some (cd, vd))
    (hm : asciiLower im ∈ ["ground", "free_air", "pipe_duct"]) :
    select_cable cc ct im len df maxVd voltage =
      selectLoop cd vd (asciiLower im) cc len df maxVd voltage (sortedSizes cd) := by
  rcases tablesFor_cases hT with ⟨h1, rfl, rfl⟩ | ⟨h0, h1, rfl, rfl⟩
  · unfold select_cable
    rw [if_pos h1, if_pos hm]
  · unfold select_cable
    rw [if_neg h0, if_pos h1, if_pos hm]

/-! ### Claim theorems -/

/-- C1: for every valid input (positive current, material Cu or Al,
method ground/free_air/pipe_duct, positive route length, derating
factor in (0,1], positive max voltage drop, supply voltage 230 or 415),
`select_cable` returns `Selected` with size `s` exactly when `s` is the
smallest catalog size satisfying both the capacity criterion
(`baseCapacity * deratingFactor >= current`, `>=` so exact equality
qualifies) and the voltage-drop criterion — every smaller size fails
one of the two, so a size passing capacity but failing voltage drop is
skipped and the ascending scan continues through the rest. -/
theorem select_cable_first_qualifying_size
    (cc : ℚ) (ct im : String) (len df maxVd voltage : ℚ)
    (cd : List (ℚ × MethodRatings)) (vd : List (ℚ × ℚ)) (s c v m : ℚ)
    (hT : tablesFor ct = some (cd, vd))
    (hm : asciiLower im ∈ ["ground", "free_air", "pipe_duct"])
    (hcc : 0 < cc) (hlen : 0 < len) (hdf : 0 < df) (hdf1 : df ≤ 1) (hmax : 0 < maxVd)
    (hvolt : voltage = 230 ∨ voltage = 415) :
    (select_cable cc ct im len df maxVd voltage = .ok (.selected s c v m) ↔
      (s ∈ sortedSizes cd ∧
       qualifiesSize cd vd (asciiLower im) cc len df maxVd voltage s ∧
       (∀ t ∈ sortedSizes cd, t < s →
         ¬ qualifiesSize cd vd (asciiLower im) cc len df maxVd voltage t) ∧
       c = roundTo 2 (baseCapacityOf cd (asciiLower im) s * df) ∧
       v = roundTo 2 (vdPercentOf vd cc len voltage s) ∧
       m = roundTo 3 (vdEntry vd s * cc * len / len))) := by
  have hv : voltage ≠ 0 := by
    rcases hvolt with rfl | rfl <;> norm_num
  have hl : len ≠ 0 := ne_of_gt hlen
  have hsorted : (sortedSizes cd).Sorted (fun a b => a < b) := by
    rcases tablesFor_cases hT with ⟨_, rfl, _⟩ | ⟨_, _, rfl, _⟩ <;> decide
  rw [select_cable_eq_loop hT hm]
  exact selectLoop_selected_iff cd vd (asciiLower im) cc len df maxVd voltage hv hl
    (sortedSizes cd) hsorted s c v m

/-- Witness for C1: the worked example of the spec — copper, ground,
63 A, 50 m, derating 1, limit 3 %, 415 V.  Size 10 meets capacity
exactly but drops 3.34 % and is skipped; size 16 is selected with
voltage drop 2.09 %. -/
theorem select_cable_first_qualifying_size_witness :
    select_cable 63 "Cu" "ground" 50 1 3 415 =
      .ok (.selected 16 85 (209 / 100) (693 / 4)) :=
  (select_cable_first_qualifying_size 63 "Cu" "ground" 50 1 3 415
    COPPER_CURRENT_RATINGS COPPER_VOLTAGE_DROP_FACTORS 16 85 (209 / 100) (693 / 4)
    (by decide) (by decide) (by norm_num) (by norm_num) (by norm_num) (by norm_num)
    (by norm_num) (Or.inr rfl)).mpr (by decide)

/-- C2: when no catalog size satisfies both criteria, `select_cable`
returns the `NotFound` record as a normal value (no exception): the
record has no size and carries the attempted `maxVoltageDropPercent`. -/
theorem select_cable_no_suitable_notFound
    (cc : ℚ) (ct im : String) (len df maxVd voltage : ℚ)
    (cd : List (ℚ × MethodRatings)) (vd : List (ℚ × ℚ))
    (hT : tablesFor ct = some (cd, vd))
    (hm : asciiLower im ∈ ["ground", "free_air", "pipe_duct"])
    (hlen : 0 < len) (hvolt : voltage = 230 ∨ voltage = 415)
    (hnone : ∀ t ∈ sortedSizes cd,
      ¬ qualifiesSize cd vd (asciiLower im) cc len df maxVd voltage t) :
    select_cable cc ct im len df maxVd voltage = .ok (.notFound maxVd) := by
  have hv : voltage ≠ 0 := by
    rcases hvolt with rfl | rfl <;> norm_num
  rw [select_cable_eq_loop hT hm]
  exact (selectLoop_notFound_iff cd vd (asciiLower im) cc len df maxVd voltage hv
    (sortedSizes cd) maxVd).mpr ⟨rfl, hnone⟩

/-- Witness for C2: a 1 000 000 A demand exceeds every derated rating,
so copper/ground at 1 m returns `NotFound` carrying the 3 % limit. -/
theorem select_cable_no_suitable_notFound_witness :
    select_cable 1000000 "Cu" "ground" 1 1 3 415 = .ok (.notFound 3) :=
  select_cable_no_suitable_notFound 1000000 "Cu" "ground" 1 1 3 415
    COPPER_CURRENT_RATINGS COPPER_VOLTAGE_DROP_FACTORS
    (by decide) (by decide) (by norm_num) (Or.inr rfl) (by decide)

/-- C9: per material, the capacity table and the voltage-drop table
have identical key lists; the scanned catalog `sortedSizes` equals
those keys, is strictly ascending, and every scanned size has an entry
in both tables. -/
theorem tables_key_sets_and_sorted :
    COPPER_CURRENT_RATINGS.map Prod.fst = COPPER_VOLTAGE_DROP_FACTORS.map Prod.fst ∧
    ALUMINIUM_CURRENT_RATINGS.map Prod.fst = ALUMINIUM_VOLTAGE_DROP_FACTORS.map Prod.fst ∧
    sortedSizes COPPER_CURRENT_RATINGS = COPPER_CURRENT_RATINGS.map Prod.fst ∧
    sortedSizes ALUMINIUM_CURRENT_RATINGS = ALUMINIUM_CURRENT_RATINGS.map Prod.fst ∧
    (sortedSizes COPPER_CURRENT_RATINGS).Sorted (fun a b => a < b) ∧
    (sortedSizes ALUMINIUM_CURRENT_RATINGS).Sorted (fun a b => a < b) ∧
    (∀ t ∈ sortedSizes COPPER_CURRENT_RATINGS,
      (COPPER_CURRENT_RATINGS.lookup t).isSome ∧
      (COPPER_VOLTAGE_DROP_FACTORS.lookup t).isSome) ∧
    (∀ t ∈ sortedSizes ALUMINIUM_CURRENT_RATINGS,
      (ALUMINIUM_CURRENT_RATINGS.lookup t).isSome ∧
      (ALUMINIUM_VOLTAGE_DROP_FACTORS.lookup t).isSome) := by
  exact ⟨by decide, by decide, by decide, by decide, by decide, by decide, by decide, by decide⟩

/-- C10: with `routeLength = 0` and otherwise valid parameters, as soon
as some catalog size passes the capacity criterion (its voltage drop is
then 0, within any positive limit), the per-metre figure divides by the
zero length and the call raises `ZeroDivisionError` instead of
returning a record or an invalid-parameter error. -/
theorem select_cable_zero_length_zero_division
    (cc : ℚ) (ct im : String) (df maxVd voltage : ℚ)
    (cd : List (ℚ × MethodRatings)) (vd : List (ℚ × ℚ))
    (hT : tablesFor ct = some (cd, vd))
    (hm : asciiLower im ∈ ["ground", "free_air", "pipe_duct"])
    (hmax : 0 < maxVd) (hvolt : voltage = 230 ∨ voltage = 415)
    (hex : ∃ t ∈ sortedSizes cd, baseCapacityOf cd (asciiLower im) t * df ≥ cc) :
    select_cable cc ct im 0 df maxVd voltage = .error .zeroDivisionError := by
  have hv : voltage ≠ 0 := by
    rcases hvolt with rfl | rfl <;> norm_num
  rw [select_cable_eq_loop hT hm]
  exact selectLoop_zero_length cd vd (asciiLower im) cc df maxVd voltage hv hmax
    (sortedSizes cd) hex

/-- Witness for C10: 10 A, copper, ground, zero length — the very first
size 1.5 passes capacity and the call raises `ZeroDivisionError`. -/
theorem select_cable_zero_length_zero_division_witness :
    select_cable 10 "Cu" "ground" 0 1 3 415 = .error .zeroDivisionError :=
  select_cable_zero_length_zero_division 10 "Cu" "ground" 1 3 415
    COPPER_CURRENT_RATINGS COPPER_VOLTAGE_DROP_FACTORS
    (by decide) (by decide) (by norm_num) (Or.inr rfl) (by decide)

/-- C6 (amended): `select_cable` raises an invalid-parameter error, and
does so before any table scan, exactly when the conductor material tag
uppercases to neither `CU` nor `AL` or the installation-method tag
lowercases to none of ground/free_air/pipe_duct.  The numeric
parameters (derating factor, route length, current, supply voltage)
are not validated. -/
theorem select_cable_invalid_iff
    (cc : ℚ) (ct im : String) (len df maxVd voltage : ℚ) :
    (∃ msg, select_cable cc ct im len df maxVd voltage = .error (.invalidParameter msg)) ↔
      (tablesFor ct = none ∨ asciiLower im ∉ ["ground", "free_air", "pipe_duct"]) := by
  constructor
  · rintro ⟨msg, hmsg⟩
    by_contra hcon
    push_neg at hcon
    obtain ⟨hTn, hmm⟩ := hcon
    obtain ⟨⟨cd, vd⟩, hsome⟩ := Option.ne_none_iff_exists'.mp hTn
    rw [select_cable_eq_loop hsome hmm] at hmsg
    exact selectLoop_ne_invalidParameter cd vd (asciiLower im) cc len df maxVd voltage
      (sortedSizes cd) msg hmsg
  · intro h
    by_cases h1 : asciiUpper ct = "CU"
    · have hm : asciiLower im ∉ ["ground", "free_air", "pipe_duct"] := by
        rcases h with hnone | hm
        · rw [tablesFor_eq_none_iff] at hnone
          exact absurd h1 hnone.1
        · exact hm
      refine ⟨"installation_method must be ground, free_air, or pipe_duct", ?_⟩
      unfold select_cable
      rw [if_pos h1, if_neg hm]
    · by_cases h2 : asciiUpper ct = "AL"
      · have hm : asciiLower im ∉ ["ground", "free_air", "pipe_duct"] := by
          rcases h with hnone | hm
          · rw [tablesFor_eq_none_iff] at hnone
            exact absurd h2 hnone.2
          · exact hm
        refine ⟨"installation_method must be ground, free_air, or pipe_duct", ?_⟩
        unfold select_cable
        rw [if_neg h1, if_pos h2, if_neg hm]
      · refine ⟨"conductor_type must be Cu or Al", ?_⟩
        unfold select_cable
        rw [if_neg h1, if_neg h2]

/-- Counterexample to C6 as stated: a derating factor of 2, far outside
(0,1], is accepted without any error — the call returns a normal
`Selected` record instead of failing with InvalidParameter. -/
theorem select_cable_accepts_out_of_range_derating :
    ¬ ((2 : ℚ) ≤ 1) ∧
    select_cable 10 "Cu" "ground" 1 2 100 415 =
      .ok (.selected (3 / 2) 34 (7 / 100) 295) :=
  ⟨by norm_num, by decide⟩

/-- C7: with all other valid parameters fixed, a larger current never
selects a smaller size: if `select_cable` yields `Selected` at both
`cc1 <= cc2` then the selected sizes satisfy `s1 <= s2`. -/
theorem select_cable_monotone_in_current
    (cc1 cc2 : ℚ) (ct im : String) (len df maxVd voltage : ℚ)
    (cd : List (ℚ × MethodRatings)) (vd : List (ℚ × ℚ))
    (s1 c1 v1 m1 s2 c2 v2 m2 : ℚ)
    (hT : tablesFor ct = some (cd, vd))
    (hm : asciiLower im ∈ ["ground", "free_air", "pipe_duct"])
    (hle : cc1 ≤ cc2) (hlen : 0 < len) (hmax : 0 < maxVd)
    (hvolt : voltage = 230 ∨ voltage = 415)
    (h1 : select_cable cc1 ct im len df maxVd voltage = .ok (.selected s1 c1 v1 m1))
    (h2 : select_cable cc2 ct im len df maxVd voltage = .ok (.selected s2 c2 v2 m2)) :
    s1 ≤ s2 := by
  have hv : voltage ≠ 0 := by
    rcases hvolt with rfl | rfl <;> norm_num
  have hvpos : 0 < voltage := by
    rcases hvolt with rfl | rfl <;> norm_num
  have hl : len ≠ 0 := ne_of_gt hlen
  have hsorted : (sortedSizes cd).Sorted (fun a b => a < b) := by
    rcases tablesFor_cases hT with ⟨_, rfl, _⟩ | ⟨_, _, rfl, _⟩ <;> decide
  have hvdnn : ∀ t ∈ sortedSizes cd, 0 ≤ vdEntry vd t := by
    rcases tablesFor_cases hT with ⟨_, rfl, rfl⟩ | ⟨_, _, rfl, rfl⟩ <;> decide
  rw [select_cable_eq_loop hT hm] at h1 h2
  rw [selectLoop_selected_iff cd vd (asciiLower im) cc1 len df maxVd voltage hv hl
    (sortedSizes cd) hsorted s1 c1 v1 m1] at h1
  rw [selectLoop_selected_iff cd vd (asciiLower im) cc2 len df maxVd voltage hv hl
    (sortedSizes cd) hsorted s2 c2 v2 m2] at h2
  obtain ⟨hs1mem, hQ1, hmin1, -, -, -⟩ := h1
  obtain ⟨hs2mem, hQ2, -, -, -, -⟩ := h2
  have hQ2' : qualifiesSize cd vd (asciiLower im) cc1 len df maxVd voltage s2 := by
    obtain ⟨hcap2, hvd2⟩ := hQ2
    refine ⟨le_trans hle hcap2, le_trans ?_ hvd2⟩
    unfold vdPercentOf
    have hnn : 0 ≤ vdEntry vd s2 := hvdnn s2 hs2mem
    have h10 : vdEntry vd s2 * cc1 ≤ vdEntry vd s2 * cc2 :=
      mul_le_mul_of_nonneg_left hle hnn
    have h11 : vdEntry vd s2 * cc1 * len ≤ vdEntry vd s2 * cc2 * len :=
      mul_le_mul_of_nonneg_right h10 (le_of_lt hlen)
    have hd : (0 : ℚ) < voltage * 1000 := by positivity
    have h12 : vdEntry vd s2 * cc1 * len / (voltage * 1000) ≤
        vdEntry vd s2 * cc2 * len / (voltage * 1000) :=
      (div_le_div_right hd).mpr h11
    exact mul_le_mul_of_nonneg_right h12 (by norm_num)
  by_cases hlt : s2 < s1
  · exact absurd hQ2' (hmin1 s2 hs2mem hlt)
  · exact le_of_not_lt hlt

/-- Witness for C7: at 10 A the scan selects 2.5 mm², at 63 A it
selects 16 mm², and 2.5 <= 16. -/
theorem select_cable_monotone_in_current_witness :
    select_cable 10 "Cu" "ground" 50 1 3 415 =
      .ok (.selected (5 / 2) 27 (107 / 50) 178) ∧
    select_cable 63 "Cu" "ground" 50 1 3 415 =
      .ok (.selected 16 85 (209 / 100) (693 / 4)) ∧
    (5 / 2 : ℚ) ≤ 16 :=
  ⟨by decide, by decide,
    select_cable_monotone_in_current 10 63 "Cu" "ground" 50 1 3 415
      COPPER_CURRENT_RATINGS COPPER_VOLTAGE_DROP_FACTORS
      (5 / 2) 27 (107 / 50) 178 16 85 (209 / 100) (693 / 4)
      (by decide) (by decide) (by norm_num) (by norm_num) (by norm_num) (Or.inr rfl)
      (by decide) (by decide)⟩

/-- C8 (amended): every `Selected` result satisfies the two defining
invariants for the pre-rounding values — the derated capacity is at
least the current and the voltage-drop percentage is within the limit —
and the record fields are exactly those values rounded to 2 decimal
places (3 for the per-metre figure), rounding being applied only to the
returned record.  (As C8 literally states it, with the record fields
themselves in the inequalities, the capacity invariant can fail by a
rounding margin below 0.005 — see the counterexample.) -/
theorem select_cable_selected_invariants
    (cc : ℚ) (ct im : String) (len df maxVd voltage : ℚ)
    (cd : List (ℚ × MethodRatings)) (vd : List (ℚ × ℚ)) (s c v m : ℚ)
    (hT : tablesFor ct = some (cd, vd))
    (hm : asciiLower im ∈ ["ground", "free_air", "pipe_duct"])
    (hlen : 0 < len) (hvolt : voltage = 230 ∨ voltage = 415)
    (hsel : select_cable cc ct im len df maxVd voltage = .ok (.selected s c v m)) :
    baseCapacityOf cd (asciiLower im) s * df ≥ cc ∧
    vdPercentOf vd cc len voltage s ≤ maxVd ∧
    c = roundTo 2 (baseCapacityOf cd (asciiLower im) s * df) ∧
    v = roundTo 2 (vdPercentOf vd cc len voltage s) ∧
    m = roundTo 3 (vdEntry vd s * cc * len / len) := by
  have hv : voltage ≠ 0 := by
    rcases hvolt with rfl | rfl <;> norm_num
  have hl : len ≠ 0 := ne_of_gt hlen
  have hsorted : (sortedSizes cd).Sorted (fun a b => a < b) := by
    rcases tablesFor_cases hT with ⟨_, rfl, _⟩ | ⟨_, _, rfl, _⟩ <;> decide
  rw [select_cable_eq_loop hT hm] at hsel
  rw [selectLoop_selected_iff cd vd (asciiLower im) cc len df maxVd voltage hv hl
    (sortedSizes cd) hsorted s c v m] at hsel
  obtain ⟨-, ⟨hcap, hvd⟩, -, hc, hvv, hmv⟩ := hsel
  exact ⟨hcap, hvd, hc, hvv, hmv⟩

/-- Witness for C8 (amended): aluminium, ground, 63 A, 50 m, derating
0.8 selects 25 mm²; its pre-rounding derated capacity 65.6 is at least
63, the drop 2.1253 % is within 3 %, and the record carries the rounded
figures. -/
theorem select_cable_selected_invariants_witness :
    baseCapacityOf ALUMINIUM_CURRENT_RATINGS (asciiLower "ground") 25 * (8 / 10) ≥ 63 ∧
    vdPercentOf ALUMINIUM_VOLTAGE_DROP_FACTORS 63 50 415 25 ≤ 3 ∧
    (328 / 5 : ℚ) =
      roundTo 2 (baseCapacityOf ALUMINIUM_CURRENT_RATINGS (asciiLower "ground") 25 * (8 / 10)) ∧
    (213 / 100 : ℚ) = roundTo 2 (vdPercentOf ALUMINIUM_VOLTAGE_DROP_FACTORS 63 50 415 25) ∧
    (882 / 5 : ℚ) = roundTo 3 (vdEntry ALUMINIUM_VOLTAGE_DROP_FACTORS 25 * 63 * 50 / 50) :=
  select_cable_selected_invariants 63 "Al" "ground" 50 (8 / 10) 3 415
    ALUMINIUM_CURRENT_RATINGS ALUMINIUM_VOLTAGE_DROP_FACTORS
    25 (328 / 5) (213 / 100) (882 / 5)
    (by decide) (by decide) (by norm_num) (Or.inr rfl) (by decide)

/-- Counterexample to C8 as stated: at current 16.982 A with derating
0.999 the first copper size is selected with pre-rounding derated
capacity 16.983, but the returned (2-decimal-rounded) capacity figure
16.98 is strictly below the current. -/
theorem select_cable_rounded_capacity_below_current :
    select_cable (8491 / 500) "Cu" "ground" 1 (999 / 1000) 100 415 =
      .ok (.selected (3 / 2) (1698 / 100) (12 / 100) (500969 / 1000)) ∧
    (1698 / 100 : ℚ) < 8491 / 500 :=
  ⟨by decide, by norm_num⟩

/-- C3: for a valid power factor, `calculate_current` computes
`(kW * 1000) / (V * powerFactor)` at 230 V and
`(kW * 1000) / (sqrt 3 * V * powerFactor)` at 415 V, rounding the
result to 2 decimal places; an HP load is first converted to kW by the
fixed factor 0.746 and then follows the same formulas. -/
theorem calculate_current_formulas (lv pf : ℝ) (hpf0 : 0 < pf) (hpf1 : pf ≤ 1) :
    calculate_current lv "kW" 230 pf = .ok (roundToR 2 ((lv * 1000) / (230 * pf))) ∧
    calculate_current lv "kW" 415 pf =
      .ok (roundToR 2 ((lv * 1000) / (Real.sqrt 3 * 415 * pf))) ∧
    calculate_current lv "HP" 230 pf = .ok (roundToR 2 ((lv * 0.746 * 1000) / (230 * pf))) ∧
    calculate_current lv "HP" 415 pf =
      .ok (roundToR 2 ((lv * 0.746 * 1000) / (Real.sqrt 3 * 415 * pf))) := by
  have hpf : ¬ ¬ (0 < pf ∧ pf ≤ 1) := not_not_intro ⟨hpf0, hpf1⟩
  refine ⟨?_, ?_, ?_, ?_⟩
  · unfold calculate_current
    rw [if_neg (not_not_intro (by decide : "kW" ∈ ["kW", "HP", "Amps"])),
      if_neg (not_not_intro (by norm_num : (230 : ℝ) ∈ [230, 415])),
      if_neg hpf, if_neg (by decide : ¬ ("kW" = "Amps")), if_pos rfl,
      if_neg (by decide : ¬ ("kW" = "HP"))]
  · unfold calculate_current
    rw [if_neg (not_not_intro (by decide : "kW" ∈ ["kW", "HP", "Amps"])),
      if_neg (not_not_intro (by norm_num : (415 : ℝ) ∈ [230, 415])),
      if_neg hpf, if_neg (by decide : ¬ ("kW" = "Amps")),
      if_neg (by norm_num : ¬ ((415 : ℝ) = 230)),
      if_neg (by decide : ¬ ("kW" = "HP"))]
  · unfold calculate_current
    rw [if_neg (not_not_intro (by decide : "HP" ∈ ["kW", "HP", "Amps"])),
      if_neg (not_not_intro (by norm_num : (230 : ℝ) ∈ [230, 415])),
      if_neg hpf, if_neg (by decide : ¬ ("HP" = "Amps")), if_pos rfl,
      if_pos (rfl : "HP" = "HP")]
  · unfold calculate_current
    rw [if_neg (not_not_intro (by decide : "HP" ∈ ["kW", "HP", "Amps"])),
      if_neg (not_not_intro (by norm_num : (415 : ℝ) ∈ [230, 415])),
      if_neg hpf, if_neg (by decide : ¬ ("HP" = "Amps")),
      if_neg (by norm_num : ¬ ((415 : ℝ) = 230)),
      if_pos (rfl : "HP" = "HP")]

/-- Witness for C3: 10 kW at 230 V unity power factor yields the
single-phase formula value. -/
theorem calculate_current_formulas_witness :
    (0 : ℝ) < 1 ∧
    calculate_current 10 "kW" 230 1 = .ok (roundToR 2 ((10 * 1000) / (230 * 1))) :=
  ⟨one_pos, (calculate_current_formulas 10 1 one_pos le_rfl).1⟩

/-- C4: with unit `Amps` and valid voltage and power factor, the load
value passes through unchanged (identity law); the power factor and
voltage are irrelevant to the returned value but are still validated
before the pass-through, an out-of-range one failing the call. -/
theorem calculate_current_amps_identity (lv volt pf : ℝ) :
    (volt ∈ ([230, 415] : List ℝ) → 0 < pf → pf ≤ 1 →
      calculate_current lv "Amps" volt pf = .ok lv) ∧
    (¬ (0 < pf ∧ pf ≤ 1) → ∃ e, calculate_current lv "Amps" volt pf = .error e) ∧
    (volt ∉ ([230, 415] : List ℝ) → ∃ e, calculate_current lv "Amps" volt pf = .error e) := by
  refine ⟨?_, ?_, ?_⟩
  · intro hmem h0 h1
    unfold calculate_current
    rw [if_neg (not_not_intro (by decide : "Amps" ∈ ["kW", "HP", "Amps"])),
      if_neg (not_not_intro hmem), if_neg (not_not_intro ⟨h0, h1⟩), if_pos rfl]
  · intro hpf
    unfold calculate_current
    rw [if_neg (not_not_intro (by decide : "Amps" ∈ ["kW", "HP", "Amps"]))]
    by_cases hmem : volt ∈ ([230, 415] : List ℝ)
    · rw [if_neg (not_not_intro hmem), if_pos hpf]
      exact ⟨_, rfl⟩
    · rw [if_pos hmem]
      exact ⟨_, rfl⟩
  · intro hmem
    unfold calculate_current
    rw [if_neg (not_not_intro (by decide : "Amps" ∈ ["kW", "HP", "Amps"])), if_pos hmem]
    exact ⟨_, rfl⟩

/-- Witness for C4: 5 Amps at 230 V, power factor 1, passes through. -/
theorem calculate_current_amps_identity_witness :
    (230 : ℝ) ∈ ([230, 415] : List ℝ) ∧
    calculate_current 5 "Amps" 230 1 = .ok 5 :=
  ⟨by norm_num, (calculate_current_amps_identity 5 230 1).1 (by norm_num) one_pos le_rfl⟩

/-- C5: `calculate_current` fails (with an invalid-parameter error and
no partial computation) exactly when the load unit is not kW/HP/Amps,
or the voltage is neither 230 nor 415, or the power factor is outside
(0,1]; the error message names the offending field, checked in source
order load_type, voltage, power_factor. -/
theorem calculate_current_validation_iff (lv : ℝ) (lt : String) (volt pf : ℝ) :
    ((∃ e, calculate_current lv lt volt pf = .error e) ↔
      (lt ∉ ["kW", "HP", "Amps"] ∨ volt ∉ ([230, 415] : List ℝ) ∨ ¬ (0 < pf ∧ pf ≤ 1))) ∧
    (lt ∉ ["kW", "HP", "Amps"] →
      calculate_current lv lt volt pf =
        .error (.invalidParameter "load_type must be kW, HP, or Amps")) ∧
    (lt ∈ ["kW", "HP", "Amps"] → volt ∉ ([230, 415] : List ℝ) →
      calculate_current lv lt volt pf =
        .error (.invalidParameter "voltage must be 230V single-phase or 415V three-phase")) ∧
    (lt ∈ ["kW", "HP", "Amps"] → volt ∈ ([230, 415] : List ℝ) → ¬ (0 < pf ∧ pf ≤ 1) →
      calculate_current lv lt volt pf =
        .error (.invalidParameter "power_factor must be between 0 and 1")) := by
  have himp1 : lt ∉ ["kW", "HP", "Amps"] →
      calculate_current lv lt volt pf =
        .error (.invalidParameter "load_type must be kW, HP, or Amps") := by
    intro h
    unfold calculate_current
    rw [if_pos h]
  have himp2 : lt ∈ ["kW", "HP", "Amps"] → volt ∉ ([230, 415] : List ℝ) →
      calculate_current lv lt volt pf =
        .error (.invalidParameter "voltage must be 230V single-phase or 415V three-phase") := by
    intro h1 h2
    unfold calculate_current
    rw [if_neg (not_not_intro h1), if_pos h2]
  have himp3 : lt ∈ ["kW", "HP", "Amps"] → volt ∈ ([230, 415] : List ℝ) →
      ¬ (0 < pf ∧ pf ≤ 1) →
      calculate_current lv lt volt pf =
        .error (.invalidParameter "power_factor must be between 0 and 1") := by
    intro h1 h2 h3
    unfold calculate_current
    rw [if_neg (not_not_intro h1), if_neg (not_not_intro h2), if_pos h3]
  have hok : lt ∈ ["kW", "HP", "Amps"] → volt ∈ ([230, 415] : List ℝ) →
      (0 < pf ∧ pf ≤ 1) → ∃ r, calculate_current lv lt volt pf = .ok r := by
    intro h1 h2 h3
    unfold calculate_current
    rw [if_neg (not_not_intro h1), if_neg (not_not_intro h2), if_neg (not_not_intro h3)]
    by_cases h4 : lt = "Amps"
    · rw [if_pos h4]
      exact ⟨_, rfl⟩
    · rw [if_neg h4]
      by_cases h5 : volt = (230 : ℝ)
      · rw [if_pos h5]
        exact ⟨_, rfl⟩
      · rw [if_neg h5]
        exact ⟨_, rfl⟩
  refine ⟨⟨?_, ?_⟩, himp1, himp2, himp3⟩
  · rintro ⟨e, he⟩
    by_contra hcon
    push_neg at hcon
    obtain ⟨h1, h2, h3⟩ := hcon
    obtain ⟨r, hr⟩ := hok h1 h2 h3
    rw [he] at hr
    exact Except.noConfusion hr
  · intro h
    rcases h with h | h | h
    · exact ⟨_, himp1 h⟩
    · by_cases h1 : lt ∈ ["kW", "HP", "Amps"]
      · exact ⟨_, himp2 h1 h⟩
      · exact ⟨_, himp1 h1⟩
    · by_cases h1 : lt ∈ ["kW", "HP", "Amps"]
      · by_cases h2 : volt ∈ ([230, 415] : List ℝ)
        · exact ⟨_, himp3 h1 h2 h⟩
        · exact ⟨_, himp2 h1 h2⟩
      · exact ⟨_, himp1 h1⟩

/-- Witness for C5: an unknown unit fails naming `load_type`. -/
theorem calculate_current_validation_iff_witness :
    calculate_current 5 "Watts" 230 1 =
      .error (.invalidParameter "load_type must be kW, HP, or Amps") :=
  (calculate_current_validation_iff 5 "Watts" 230 1).2.1 (by decide)

end CableApp
